import Mathlib

/-!
Verification development for the DocuBridge intake bot (src/main.py).

The Python program is shallowly embedded: dictionaries become association
lists from `String` keys to `Val` values (Python ints / strings / None),
and the pure business-logic functions of `main.py` are translated one by
one, keeping their names.  External collaborators (the language model and
the message transport) are passed in as function parameters; database
writes are reflected in the returned state.  A Python expression that can
raise is modelled with `Option` (`none` = the exception propagates).
-/

set_option maxRecDepth 4096

/-! ## Python-style primitives: case mapping, strip, substring search -/

/-- Lowercase a character, ASCII plus the Cyrillic repertoire used by the
program (А..Я 0x410-0x42F to а..я, Ё to ё). -/
def chLow (c : Char) : Char :=
  let n := c.toNat
  if 65 ≤ n ∧ n ≤ 90 then Char.ofNat (n + 32)
  else if 1040 ≤ n ∧ n ≤ 1071 then Char.ofNat (n + 32)
  else if n = 1025 then Char.ofNat 1105
  else c

/-- Uppercase a character, ASCII plus the Cyrillic repertoire. -/
def chUp (c : Char) : Char :=
  let n := c.toNat
  if 97 ≤ n ∧ n ≤ 122 then Char.ofNat (n - 32)
  else if 1072 ≤ n ∧ n ≤ 1103 then Char.ofNat (n - 32)
  else if n = 1105 then Char.ofNat 1025
  else c

/-- A cased letter (ASCII or Cyrillic), for Python `str.title` word breaks. -/
def chIsCased (c : Char) : Bool :=
  let n := c.toNat
  (65 ≤ n && n ≤ 90) || (97 ≤ n && n ≤ 122) ||
  (1040 ≤ n && n ≤ 1103) || n == 1025 || n == 1105

/-- Python `str.lower()`. -/
def pyLower (s : String) : String := String.mk (s.data.map chLow)

def titleGo : Bool → List Char → List Char
  | _, [] => []
  | prevCased, c :: rest =>
    (if chIsCased c then (if prevCased then chLow c else chUp c) else c)
      :: titleGo (chIsCased c) rest

/-- Python `str.title()`: uppercase every cased character that follows a
non-cased one, lowercase the rest. -/
def pyTitle (s : String) : String := String.mk (titleGo false s.data)

/-- Python `str.strip()` on a character list. -/
def stripL (l : List Char) : List Char :=
  ((l.dropWhile Char.isWhitespace).reverse.dropWhile Char.isWhitespace).reverse

/-- Python `str.strip()`. -/
def pyStrip (s : String) : String := String.mk (stripL s.data)

/-- Does the list start with the given pattern? -/
def listStarts : List Char → List Char → Bool
  | _, [] => true
  | [], _ :: _ => false
  | a :: as, b :: bs => a == b && listStarts as bs

/-- Case-insensitive `listStarts` (both sides folded through `chLow`). -/
def ciStarts : List Char → List Char → Bool
  | _, [] => true
  | [], _ :: _ => false
  | a :: as, b :: bs => chLow a == chLow b && ciStarts as bs

def listHas (needle : List Char) : List Char → Bool
  | [] => listStarts [] needle
  | c :: t => listStarts (c :: t) needle || listHas needle t

/-- Python `needle in hay` for strings. -/
def containsSub (hay needle : String) : Bool := listHas needle.data hay.data

/-- Value of a list of decimal digits. -/
def digitsToNat (ds : List Char) : Nat :=
  ds.foldl (fun a c => a * 10 + (c.toNat - 48)) 0

def allDigits (ds : List Char) : Bool := ds.all Char.isDigit

/-- Python `int(s)` for a string: optional sign, then digits; anything else
raises (`none`).  (Leading/trailing whitespace is stripped, as in Python.) -/
def strToInt (s : String) : Option Int :=
  match (pyStrip s).data with
  | [] => none
  | '+' :: rest => if rest ≠ [] && allDigits rest then some (digitsToNat rest) else none
  | '-' :: rest => if rest ≠ [] && allDigits rest then some (-(digitsToNat rest : Int)) else none
  | cs => if allDigits cs then some (digitsToNat cs) else none

/-! ## Values and dictionaries -/

/-- A Python value stored in the lead-data dictionary: an int, a string, or
`None`. -/
inductive Val where
  | vInt (n : Int)
  | vStr (s : String)
  | vNone
deriving Repr, DecidableEq, BEq, Inhabited

open Val

/-- Python `int(v)`; `none` models a raised exception. -/
def pyInt : Val → Option Int
  | vInt n => some n
  | vStr s => strToInt s
  | vNone => none

/-- Python `str(v)`. -/
def pyStrOf : Val → String
  | vInt n => toString n
  | vStr s => s
  | vNone => "None"

/-- Python truthiness of a value. -/
def truthy : Val → Bool
  | vInt n => n ≠ 0
  | vStr s => s ≠ ""
  | vNone => false

def truthyO : Option Val → Bool
  | some v => truthy v
  | none => false

/-- Python `x or dflt` where `x` is an optional value. -/
def pyOr (x : Option Val) (dflt : Val) : Val :=
  match x with
  | some v => if truthy v then v else dflt
  | none => dflt

/-- A Python dict, as an insertion-ordered association list. -/
abbrev Dict := List (String × Val)

/-- Dict lookup: `d.get(k)` / `d[k]`. -/
def dget : Dict → String → Option Val
  | [], _ => none
  | (k', v') :: rest, k => if k' == k then some v' else dget rest k

/-- Dict assignment `d[k] = v`: update in place, or append a new key. -/
def dset : Dict → String → Val → Dict
  | [], k, v => [(k, v)]
  | (k', v') :: rest, k, v =>
    if k' == k then (k, v) :: rest else (k', v') :: dset rest k v

/-- Dict deletion `d.pop(k, None)` (keys are unique in the dicts the
program builds, so removing every binding of `k` is the same thing). -/
def ddel : Dict → String → Dict
  | [], _ => []
  | (k', v') :: rest, k => if k' == k then ddel rest k else (k', v') :: ddel rest k

def dkeys (d : Dict) : List String := d.map (fun kv => kv.1)

/-- Python `==` on dicts: same keys, same values (order-insensitive). -/
def deqb (a b : Dict) : Bool :=
  (dkeys a ++ dkeys b).all (fun k => dget a k == dget b k)

/-- `value in (None, "", 0)` or the key is absent: the emptiness test used
by `merge_ai_data`. -/
def pyEmptyVal : Option Val → Bool
  | none => true
  | some vNone => true
  | some (vStr s) => s == ""
  | some (vInt n) => n == 0

/-- Truthiness of `heuristic_parse(..) or ai_understand(..)` results. -/
def dictTruthy : Option Dict → Bool
  | some d => !d.isEmpty
  | none => false

/-- Python `a or b` for optional dicts. -/
def pyOrOpt (a b : Option Dict) : Option Dict := if dictTruthy a then a else b

/-! ### Elementary dictionary lemmas -/

theorem dget_dset_self (d : Dict) (k : String) (v : Val) :
    dget (dset d k v) k = some v := by
  induction d with
  | nil => simp [dget, dset]
  | cons kv rest ih =>
    obtain ⟨k', v'⟩ := kv
    by_cases h : k' = k
    · simp [dget, dset, h]
    · simp only [dset, dget, beq_iff_eq, if_neg h]
      simpa [dget, h] using ih

theorem dget_dset_ne (d : Dict) (k k' : String) (v : Val) (h : k' ≠ k) :
    dget (dset d k' v) k = dget d k := by
  induction d with
  | nil => simp [dget, dset, h]
  | cons kv rest ih =>
    obtain ⟨k0, v0⟩ := kv
    by_cases h0 : k0 = k'
    · simp [dget, dset, h0, h, Ne.symm h]
    · simp only [dset, beq_iff_eq, if_neg h0, dget]
      by_cases h1 : k0 = k
      · simp [dget, h1]
      · simp [dget, h1, ih]

theorem dget_ddel_ne (d : Dict) (k k' : String) (h : k' ≠ k) :
    dget (ddel d k') k = dget d k := by
  induction d with
  | nil => rfl
  | cons kv rest ih =>
    obtain ⟨k0, v0⟩ := kv
    by_cases h0 : k0 = k'
    · subst h0
      simp [ddel, dget, ih, h, Ne.symm h]
    · by_cases h1 : k0 = k
      · subst h1; simp [ddel, dget, h0, Ne.symm h]
      · simp [ddel, dget, h0, h1, ih]

theorem dget_ddel_self (d : Dict) (k : String) :
    dget (ddel d k) k = none := by
  induction d with
  | nil => rfl
  | cons kv rest ih =>
    obtain ⟨k0, v0⟩ := kv
    by_cases h0 : k0 = k
    · simpa [ddel, h0] using ih
    · simp [ddel, dget, h0, ih]

/-! ## Field schema (src/main.py lines 485-500) -/

def COUNTRY_CHOICES : List String := ["Украина", "Россия", "Беларусь"]

/-- One entry of the `FIELDS` wizard schema. -/
structure FieldSpec where
  key : String
  ftype : String
  q : String
  choices : List String
deriving Repr, DecidableEq, Inhabited

/-- The ordered twelve-field wizard schema `FIELDS`. -/
def FIELDS : List FieldSpec := [
  ⟨"doc_type", "text", "Какой тип документа? (например: доверенность, диплом, свидетельство)", []⟩,
  ⟨"from_country", "choice", "Из какой страны отправляем? (Украина/Россия/Беларусь)", COUNTRY_CHOICES⟩,
  ⟨"from_city", "text", "Из какого города отправляем?", []⟩,
  ⟨"to_country", "choice", "В какую страну доставляем? (Украина/Россия/Беларусь)", COUNTRY_CHOICES⟩,
  ⟨"to_city", "text", "В какой город доставляем?", []⟩,
  ⟨"pages_a4", "int", "Сколько листов A4? (число)", []⟩,
  ⟨"weight_grams", "int_opt", "Если знаете точный вес в граммах — укажите, иначе напишите «нет»", []⟩,
  ⟨"urgency", "choice", "Срочность: обычная или срочная?", ["обычная", "срочная"]⟩,
  ⟨"name", "name", "Как к вам обращаться (имя/фамилия)?", []⟩,
  ⟨"phone", "phone", "Контактный телефон (+380 / +7 / +375):", []⟩,
  ⟨"email", "email", "Электронная почта:", []⟩,
  ⟨"best_time", "text", "Когда вам удобнее принимать звонок/сообщение?", []⟩]

/-! ## Validators (src/main.py lines 502-550) -/

/-- Russian number words understood by `parse_int` (`RUS_NUMS`). -/
def RUS_NUMS : List (String × Nat) := [
  ("ноль", 0), ("один", 1), ("два", 2), ("три", 3), ("четыре", 4), ("пять", 5),
  ("шесть", 6), ("семь", 7), ("восемь", 8), ("девять", 9), ("десять", 10),
  ("одиннадцать", 11), ("двенадцать", 12), ("тринадцать", 13), ("четырнадцать", 14),
  ("пятнадцать", 15), ("шестнадцать", 16), ("семнадцать", 17), ("восемнадцать", 18),
  ("девятнадцать", 19), ("двадцать", 20), ("тридцать", 30), ("сорок", 40),
  ("пятьдесят", 50), ("шестьдесят", 60), ("семьдесят", 70), ("восемьдесят", 80),
  ("девяносто", 90), ("сто", 100)]

/-- First maximal digit run in the text (the regex search for a number). -/
def firstDigitRun : List Char → Option (List Char)
  | [] => none
  | c :: rest =>
    if c.isDigit then some (c :: rest.takeWhile Char.isDigit) else firstDigitRun rest

/-- A lowercase Cyrillic letter, the token class of the word-number scan. -/
def isRusLower (c : Char) : Bool :=
  let n := c.toNat
  (1072 ≤ n && n ≤ 1103) || n == 1105

/-- Maximal runs of lowercase Cyrillic letters (the `findall` in `parse_int`). -/
def rusTokensAux : List Char → List Char → List String
  | [], cur => if cur.isEmpty then [] else [String.mk cur.reverse]
  | c :: rest, cur =>
    if isRusLower c then rusTokensAux rest (c :: cur)
    else if cur.isEmpty then rusTokensAux rest []
    else String.mk cur.reverse :: rusTokensAux rest []

/-- The composition loop of `parse_int` over recognized number words. -/
def parseIntWords (tokens : List String) : Option Int :=
  let step := fun (st : Int × Int × Bool) (t : String) =>
    match RUS_NUMS.find? (fun p => p.1 == t) with
    | some p =>
      let val : Int := p.2
      let total := st.1
      let last := st.2.1
      if 20 ≤ val && val % 10 == 0 then (total, val, true)
      else if last ≠ 0 then (total + last + val, 0, true)
      else (total + val, 0, true)
    | none => st
  let res := tokens.foldl step (0, 0, false)
  if res.2.2 then
    (if res.1 > 0 then some res.1 else if res.2.1 > 0 then some res.2.1 else none)
  else none

/-- `parse_int`: first digit run, else Russian number words. -/
def parse_int (text : String) : Option Int :=
  if text == "" then none
  else
    let s := pyLower (pyStrip text)
    match firstDigitRun s.data with
    | some ds => some ((digitsToNat ds : Nat) : Int)
    | none => parseIntWords (rusTokensAux s.data [])

/-- A dot that is not in the last position of the list. -/
def dotNotLast : List Char → Bool
  | [] => false
  | [_] => false
  | c :: rest => c == '.' || dotNotLast rest

/-- `valid_email`: the regex `[^@\s]+@[^@\s]+\.[^@\s]+` anchored on the
stripped string — exactly one `@`, no whitespace around it, and a dot
strictly inside the domain part. -/
def valid_email (s : String) : Bool :=
  let cs := stripL s.data
  let loc := cs.takeWhile (fun c => c ≠ '@')
  match cs.drop loc.length with
  | '@' :: domain =>
    (!loc.isEmpty) && loc.all (fun c => !c.isWhitespace) &&
      domain.all (fun c => c ≠ '@' && !c.isWhitespace) &&
      dotNotLast (domain.drop 1)
  | _ => false

/-- Remove every space character (Python `replace(" ", "")`). -/
def removeSpaces (l : List Char) : List Char := l.filter (fun c => c ≠ ' ')

/-- `valid_phone`: strip, remove spaces, check the three prefixes. -/
def valid_phone (s : String) : Bool :=
  let t := removeSpaces (stripL s.data)
  listStarts t "+380".data || listStarts t "+7".data || listStarts t "+375".data

/-- The character class of `valid_name`: Latin or Cyrillic letters,
hyphen, apostrophe, whitespace. -/
def nameChar (c : Char) : Bool :=
  let n := c.toNat
  (65 ≤ n && n ≤ 90) || (97 ≤ n && n ≤ 122) || (1040 ≤ n && n ≤ 1103) ||
    n == 1025 || n == 1105 || c == '-' || c == '\'' || c.isWhitespace

/-- `valid_name`: at least two characters, all from the name class. -/
def valid_name (s : String) : Bool :=
  let t := pyStrip s
  2 ≤ t.data.length && t.data.all nameChar

/-! ## Free-text extraction (src/main.py lines 552-691) -/

def AI_KEYS : List String :=
  ["doc_type", "from_country", "from_city", "to_country", "to_city", "pages_a4",
   "weight_grams", "urgency", "name", "phone", "email", "best_time"]

def URGENT_WORDS : List String :=
  ["срочно", "срочная", "экспресс", "быстро", "быстрее", "как можно быстро",
   "как можно быстрее", "urgent", "express", "ускоренная", "ускоренный",
   "максимально быстро"]

def NORMAL_WORDS : List String :=
  ["обычно", "обычная", "стандарт", "стандартный", "базовый", "не быстрый",
   "небыстро", "normal", "standard", "без спешки"]

/-- `infer_urgency`: scan the synonym lists, express first. -/
def infer_urgency (text : String) : Option String :=
  let s := pyLower text
  if URGENT_WORDS.any (fun w => containsSub s w) then some "срочная"
  else if NORMAL_WORDS.any (fun w => containsSub s w) then some "обычная"
  else none

/-- Match of the weight regex (digits, optional spaces, then the Russian
gram unit) at the head of the list. -/
def weightAt (cs : List Char) : Option Int :=
  let ds := cs.takeWhile Char.isDigit
  if ds.isEmpty then none
  else
    match (cs.dropWhile Char.isDigit).dropWhile Char.isWhitespace with
    | c :: _ => if c == 'г' then some ((digitsToNat ds : Nat) : Int) else none
    | [] => none

def searchWeight : List Char → Option Int
  | [] => none
  | c :: rest =>
    match weightAt (c :: rest) with
    | some n => some n
    | none => searchWeight rest

/-- Match of the pages regex (digits, optional spaces, then a Russian
page/sheet unit) at the head of the list. -/
def pagesAt (cs : List Char) : Option Int :=
  let ds := cs.takeWhile Char.isDigit
  if ds.isEmpty then none
  else
    let rest2 := (cs.dropWhile Char.isDigit).dropWhile Char.isWhitespace
    if listStarts rest2 "стр".data || listStarts rest2 "лист".data then
      some ((digitsToNat ds : Nat) : Int)
    else none

def searchPages : List Char → Option Int
  | [] => none
  | c :: rest =>
    match pagesAt (c :: rest) with
    | some n => some n
    | none => searchPages rest

/-- `heuristic_parse`: local extraction of urgency, weight and pages, with
the pages-to-weight backfill; `none` when nothing was recognized. -/
def heuristic_parse (text : String) : Option Dict :=
  if text == "" then none
  else
    let out0 : Dict := []
    let out1 := match infer_urgency text with
      | some u => dset out0 "urgency" (vStr u)
      | none => out0
    let low := (pyLower text).data
    let out2 := match searchWeight low with
      | some n => dset out1 "weight_grams" (vInt n)
      | none => out1
    let out3 := match searchPages low with
      | some n => dset out2 "pages_a4" (vInt n)
      | none => out2
    let out4 :=
      if (dget out3 "pages_a4").isSome && (dget out3 "weight_grams").isNone then
        match pyInt (pyOr (dget out3 "pages_a4") (vInt 0)) with
        | some pages => if pages > 0 then dset out3 "weight_grams" (vInt (pages * 6)) else out3
        | none => out3
      else out3
    if out4.isEmpty then none else some out4

/-- Country alias table of `normalize_country`. -/
def COUNTRY_MAP : List (String × String) := [
  ("украина", "Украина"), ("ukraine", "Украина"), ("ua", "Украина"),
  ("россия", "Россия"), ("rf", "Россия"), ("ru", "Россия"), ("russia", "Россия"),
  ("беларусь", "Беларусь"), ("рб", "Беларусь"), ("by", "Беларусь"),
  ("belarus", "Беларусь")]

/-- `normalize_country`: canonicalize known aliases, otherwise title-case
the stripped input. -/
def normalize_country (x : String) : Option String :=
  if x == "" then none
  else
    match COUNTRY_MAP.find? (fun p => p.1 == pyLower (pyStrip x)) with
    | some p => some p.2
    | none => some (pyTitle (pyStrip x))

/-- `normalize_urgency`: map synonyms to the two canonical labels. -/
def normalize_urgency (x : String) : Option String :=
  if x == "" then none
  else if ["обычная", "standard", "normal", "базовый", "стандартный"].contains
      (pyLower (pyStrip x)) then some "обычная"
  else if ["срочная", "express", "urgent", "ускоренная", "ускоренный", "экспресс"].contains
      (pyLower (pyStrip x)) then some "срочная"
  else none

/-- The numeric branch of the cleaning loop: `int(v)` must succeed and be
non-negative (a failure is swallowed by the inner `try`). -/
def cleanNum (c : Dict) (k : String) (v : Val) : Dict :=
  match pyInt v with
  | some iv => if 0 ≤ iv then dset c k (vInt iv) else c
  | none => c

/-- The country branch of the cleaning loop: store the normalized name
when it is truthy. -/
def cleanCountry (c : Dict) (k : String) (v : Val) : Dict :=
  match normalize_country (pyStrOf v) with
  | some nv => if nv ≠ "" then dset c k (vStr nv) else c
  | none => c

/-- The urgency branch of the cleaning loop: store the canonical label
when one is recognized. -/
def cleanUrgency (c : Dict) (k : String) (v : Val) : Dict :=
  match normalize_urgency (pyStrOf v) with
  | some nu => if nu ≠ "" then dset c k (vStr nu) else c
  | none => c

/-- The fallback branch of the cleaning loop: store the stripped string
when it is nonempty. -/
def cleanText (c : Dict) (k : String) (v : Val) : Dict :=
  if pyStrip (pyStrOf v) ≠ "" then dset c k (vStr (pyStrip (pyStrOf v))) else c

/-- One iteration of the cleaning loop of `ai_understand` over the items
of the JSON object returned by the model. -/
def ai_clean_step (c : Dict) (kv : String × Val) : Dict :=
  if !(AI_KEYS.contains kv.1) || kv.2 == vNone then c
  else if kv.1 == "pages_a4" || kv.1 == "weight_grams" then cleanNum c kv.1 kv.2
  else if kv.1 == "from_country" || kv.1 == "to_country" then cleanCountry c kv.1 kv.2
  else if kv.1 == "urgency" then cleanUrgency c kv.1 kv.2
  else cleanText c kv.1 kv.2

/-- Drop the entry at `k` when its (string) value fails `check` — the
post-loop re-validation of phone / email / name in `ai_understand`. -/
def dropInvalid (c : Dict) (k : String) (check : String → Bool) : Dict :=
  match dget c k with
  | some v => if check (pyStrOf v) then c else ddel c k
  | none => c

/-- The pages-to-weight backfill at the end of `ai_understand`'s cleaning
(lines 683-686); `none` models the exception that the surrounding `try`
turns into a `None` result. -/
def ai_clean_backfill (c3 : Dict) : Option Dict :=
  if (dget c3 "pages_a4").isSome &&
      ((dget c3 "weight_grams").isNone || (dget c3 "weight_grams").getD vNone == vInt 0) then
    match pyInt (pyOr (dget c3 "pages_a4") (vInt 0)) with
    | some pages =>
      some (if pages > 0 then dset c3 "weight_grams" (vInt (pages * 6)) else c3)
    | none => none
  else some c3

/-- The deterministic cleaning core of `ai_understand` (lines 649-688),
applied to the JSON object parsed out of the model's reply: the cleaning
loop, the phone/email/name re-validation, the weight backfill, and the
empty-result-to-`None` normalization.  The network call itself is an
external collaborator; its parsed reply is this function's argument. -/
def ai_clean (data : List (String × Val)) : Option Dict :=
  match ai_clean_backfill
      (dropInvalid (dropInvalid (dropInvalid (data.foldl ai_clean_step [])
        "phone" valid_phone) "email" valid_email) "name" valid_name) with
  | none => none
  | some c4 => if c4.isEmpty then none else some c4

/-! ## Merge engine (src/main.py lines 693-742) -/

/-- The `is_filled` helper of `first_missing_index`: does the stored value
pass the field's type validator? -/
def is_filled (f : FieldSpec) (value : Option Val) : Bool :=
  match value with
  | none => false
  | some vNone => false
  | some v =>
    let t := f.ftype
    if t == "text" then
      match v with
      | vInt n => n ≠ 0
      | _ => pyStrip (pyStrOf v) ≠ ""
    else if t == "choice" then f.choices.contains (pyStrip (pyStrOf v))
    else if t == "int" then
      match pyInt v with
      | some n => n > 0
      | none => false
    else if t == "int_opt" then
      match pyInt v with
      | some n => 0 ≤ n
      | none => false
    else if t == "phone" then valid_phone (pyStrOf v)
    else if t == "email" then valid_email (pyStrOf v)
    else if t == "name" then valid_name (pyStrOf v)
    else false

def firstMissingAux (d : Dict) : List FieldSpec → Nat
  | [] => 0
  | f :: rest => if is_filled f (dget d f.key) then 1 + firstMissingAux d rest else 0

/-- `first_missing_index`: index of the first unfilled field in schema
order, or the schema length when everything is filled. -/
def first_missing_index (data : Dict) : Nat := firstMissingAux data FIELDS

/-- One iteration of the merge loop: overwrite key `k` with the parsed
value only when the existing value is absent / empty / zero. -/
def mergeStep (parsed : Dict) (m : Dict) (k : String) : Dict :=
  match dget parsed k with
  | some v => if pyEmptyVal (dget m k) then dset m k v else m
  | none => m

/-- The weight backfill at the end of `merge_ai_data`: when the page count
is truthy and the weight is not, derive the weight as pages times six. -/
def mergeBackfill (merged : Dict) : Dict :=
  if truthyO (dget merged "pages_a4") && !truthyO (dget merged "weight_grams") then
    match pyInt ((dget merged "pages_a4").getD vNone) with
    | some pages =>
      if pages > 0 then dset merged "weight_grams" (vInt (pages * 6)) else merged
    | none => merged
  else merged

/-- `merge_ai_data`: merge recognized fields without erasing filled
values, then backfill the weight from the page count. -/
def merge_ai_data (existing parsed : Dict) : Dict :=
  mergeBackfill (AI_KEYS.foldl (mergeStep parsed) existing)

/-! ## Pricing and ETA (src/main.py lines 388-440) -/

def PRICING_KEYS : List String := ["обычная", "срочная"]

/-- The `PRICING` ladder for the given urgency key. -/
def PRICING (u : String) : List (Int × Int) :=
  if u == "срочная" then [(50, 110), (100, 130)] else [(50, 65), (100, 85)]

/-- `base_price`: first tier whose threshold covers the weight. -/
def base_price (weight : Int) : List (Int × Int) → Option Int × Option Int
  | [] => (none, none)
  | (thr, price) :: rest =>
    if weight ≤ thr then (some price, some thr) else base_price weight rest

/-- `eta_working_days`: fixed corridor estimates. -/
def eta_working_days (from_country to_country : String) : Option String :=
  let fc := pyTitle from_country
  let tc := pyTitle to_country
  if fc == "Украина" && tc == "Россия" then some "27–29"
  else if fc == "Украина" && tc == "Беларусь" then some "21–23"
  else none

/-- The quote record produced by `compute_quote`. -/
structure Quote where
  price_eur : Option Int
  threshold_g : Option Int
  eta_working : Option String
  notes : Option String
  urgency : String
deriving Repr, DecidableEq, Inhabited

/-- A value used where Python calls a string method; a non-string raises. -/
def strOf : Val → Option String
  | vStr s => some s
  | _ => none

/-- Urgency resolution of `compute_quote` (lines 416-418): strip, lower,
and fall back to the standard label when the key is not in the table. -/
def resolveUrgency (us : String) : String :=
  if PRICING_KEYS.contains (pyLower (pyStrip us)) then pyLower (pyStrip us) else "обычная"

/-- Quote assembly of `compute_quote` (lines 420-440): table lookup, or
the manual-quote sentinel for zero or over-threshold weights. -/
def quoteAssemble (w : Int) (urgency : String) (eta_work : Option String) : Quote :=
  if w == 0 || (base_price w (PRICING urgency)).1.isNone then
    ⟨none, none, eta_work, some "вес 0 г или >100 г — стоимость по согласованию", urgency⟩
  else
    ⟨(base_price w (PRICING urgency)).1, (base_price w (PRICING urgency)).2, eta_work,
     if urgency == "срочная" then some "ускоренная доставка" else none, urgency⟩

/-- Body of `compute_quote` once the four raw reads have succeeded:
title-case the countries, resolve the urgency, look the price up and
assemble the quote record (lines 412-440). -/
def compute_quote_core (fcs tcs : String) (w : Int) (us : String) : Quote :=
  quoteAssemble w (resolveUrgency us) (eta_working_days (pyTitle fcs) (pyTitle tcs))

/-- `compute_quote` (lines 411-440); `none` models a raised exception on a
non-string country/urgency or a non-numeric weight. -/
def compute_quote (d : Dict) : Option Quote :=
  match strOf (pyOr (dget d "from_country") (vStr "")),
        strOf (pyOr (dget d "to_country") (vStr "")),
        pyInt (pyOr (dget d "weight_grams") (vInt 0)),
        strOf (pyOr (dget d "urgency") (vStr "обычная")) with
  | some fcs, some tcs, some w, some us => some (compute_quote_core fcs tcs w us)
  | _, _, _, _ => none

/-! ## Output lines derived from a quote (lines 452-457 and 1040-1056) -/

def optIntRepr : Option Int → String
  | some n => toString n
  | none => "None"

/-- The price line of the admin notification (`notify_admin_lead`). -/
def notify_price_line (q : Quote) : String :=
  match q.price_eur with
  | some p => "Оценка: €" ++ toString p ++ " (до " ++ optIntRepr q.threshold_g ++ " г)"
  | none => "Оценка: по согласованию"

/-- The delivery-time line of the admin notification (`notify_admin_lead`,
lines 454-457): corridor estimate when known, with no express override. -/
def notify_eta_line (q : Quote) : String :=
  if (q.eta_working.getD "") ≠ "" then
    "Срок: ориентировочно " ++ q.eta_working.getD "" ++ " рабочих дней"
  else "Срок: требует подтверждения маршрута"

/-- The price line of the user confirmation (`finalize_form`). -/
def finalize_price_line (q : Quote) : String :=
  match q.price_eur with
  | some p => "Стоимость: €" ++ toString p ++ " (до " ++ optIntRepr q.threshold_g ++ " г)"
  | none => "Стоимость: по согласованию"

/-- The delivery-time line of the user confirmation (`finalize_form`,
lines 1047-1054): fixed expedited text for express urgency. -/
def finalize_eta_line (q : Quote) : String :=
  if q.urgency == "срочная" then "Срок доставки: ускоренная доставка"
  else if (q.eta_working.getD "") ≠ "" then
    "Срок доставки: ориентировочно " ++ q.eta_working.getD "" ++ " рабочих дней"
  else "Срок доставки: требует подтверждения маршрута"

/-- Python string interpolation of `data.get(k)` (absent prints as None). -/
def pyShow : Option Val → String
  | some v => pyStrOf v
  | none => "None"

/-- The user-facing confirmation message composed by `finalize_form`. -/
def finalize_reply (data : Dict) (q : Quote) : String :=
  "✅ Спасибо! Все данные получены.\n" ++
  "Маршрут: " ++ pyShow (dget data "from_city") ++ ", " ++ pyShow (dget data "from_country") ++
  " → " ++ pyShow (dget data "to_city") ++ ", " ++ pyShow (dget data "to_country") ++ "\n" ++
  "Листов A4: " ++ pyShow (dget data "pages_a4") ++ " (≈ " ++ pyShow (dget data "weight_grams") ++ " г)\n" ++
  finalize_price_line q ++ "\n" ++ finalize_eta_line q ++ "\n" ++
  (match q.notes with
   | some n => if n ≠ "" then n ++ "\n\n" else "\n"
   | none => "\n") ++
  "Связаться: " ++ pyShow (dget data "name") ++ ", " ++ pyShow (dget data "phone") ++ ", " ++
  pyShow (dget data "email") ++ " (" ++ pyShow (dget data "best_time") ++ ")\n\n" ++
  "Если всё верно — просто ожидайте ответ нашего специалиста. Если нужно что-то изменить — пройдите опрос снова."

/-! ## Correction commands (src/main.py lines 744-835) -/

def FIELD_ALIASES : List (String × List String) := [
  ("doc_type", ["тип документа", "документ", "вид документа"]),
  ("from_country", ["страна отправки", "страна откуда", "из страны", "страна-отправитель"]),
  ("from_city", ["город отправки", "город откуда", "из города"]),
  ("to_country", ["страна доставки", "страна назначения", "в страну", "страна-получатель"]),
  ("to_city", ["город доставки", "город назначения", "в город"]),
  ("pages_a4", ["страницы", "страниц", "листов", "листы", "количество страниц", "кол-во листов", "а4"]),
  ("weight_grams", ["вес", "масса", "грамм", "граммы"]),
  ("urgency", ["срочность", "скорость", "режим доставки"]),
  ("name", ["имя", "фамилия", "как обращаться"]),
  ("phone", ["телефон", "номер", "контакт"]),
  ("email", ["почта", "email", "e-mail", "электронная почта"]),
  ("best_time", ["время связи", "когда связаться", "лучшее время"])]

/-- `alias_to_key`: first schema key one of whose aliases occurs in the
text. -/
def alias_to_key (text : String) : Option String :=
  let s := pyLower text
  (FIELD_ALIASES.find? (fun kv => kv.2.any (fun a => containsSub s a))).map (fun kv => kv.1)

/-- Letter-or-hyphen character class of the country regex. -/
def wordChar (c : Char) : Bool :=
  let n := c.toNat
  (65 ≤ n && n ≤ 90) || (97 ≤ n && n ≤ 122) || (1040 ≤ n && n ≤ 1103) ||
    n == 1025 || n == 1105 || c == '-'

/-- Keyword, then mandatory whitespace, then a letter/hyphen group. -/
def kwGroupAt (cs : List Char) (kw : List Char) : Option (List Char) :=
  if ciStarts cs kw then
    let rest := cs.drop kw.length
    if (rest.takeWhile Char.isWhitespace).isEmpty then none
    else
      let grp := (rest.dropWhile Char.isWhitespace).takeWhile wordChar
      if grp.isEmpty then none else some grp
  else none

def countryAt (cs : List Char) : Option (List Char) :=
  match kwGroupAt cs "из".data with
  | some g => some g
  | none =>
    match kwGroupAt cs "в".data with
    | some g => some g
    | none => kwGroupAt cs "во".data

def searchCountry : List Char → Option (List Char)
  | [] => none
  | c :: rest =>
    match countryAt (c :: rest) with
    | some g => some g
    | none => searchCountry rest

/-- Letter/hyphen/whitespace class of the city regex. -/
def cityChar (c : Char) : Bool := wordChar c || c.isWhitespace

/-- Keyword, then whitespace, then at least two characters of the city
class (the whitespace quantifier backtracks into the group if needed). -/
def cityKwAt (cs : List Char) (kw : List Char) : Option (List Char) :=
  if ciStarts cs kw then
    let t := (cs.drop kw.length).takeWhile cityChar
    let wsLead := (t.takeWhile Char.isWhitespace).length
    if 1 ≤ wsLead && 3 ≤ t.length then some (t.drop (min wsLead (t.length - 2)))
    else none
  else none

def cityAt (cs : List Char) : Option (List Char) :=
  match cityKwAt cs "город".data with
  | some g => some g
  | none =>
    match cityKwAt cs "в".data with
    | some g => some g
    | none => cityKwAt cs "из".data

def searchCity : List Char → Option (List Char)
  | [] => none
  | c :: rest =>
    match cityAt (c :: rest) with
    | some g => some g
    | none => searchCity rest

def phoneChar (c : Char) : Bool := c.isDigit || c.isWhitespace || c == '-'

/-- The phone regex: a plus, a digit, then at least six digits, spaces or
hyphens. -/
def phoneAt : List Char → Option (List Char)
  | '+' :: d :: rest =>
    if d.isDigit then
      let run := rest.takeWhile phoneChar
      if 6 ≤ run.length then some ('+' :: d :: run) else none
    else none
  | _ => none

def searchPhone : List Char → Option (List Char)
  | [] => none
  | c :: rest =>
    match phoneAt (c :: rest) with
    | some g => some g
    | none => searchPhone rest

def emailC1 (c : Char) : Bool :=
  c.isAlphanum || c == '.' || c == '_' || c == '%' || c == '+' || c == '-'

def emailC2 (c : Char) : Bool := c.isAlphanum || c == '.' || c == '-'

/-- Rightmost dot of the domain run that is followed by at least two
letters and preceded by at least one character (regex backtracking). -/
def lastGoodDot (R : List Char) : Option Nat :=
  (List.range R.length).foldl
    (fun acc i =>
      if 1 ≤ i && R.getD i ' ' == '.' &&
          2 ≤ ((R.drop (i + 1)).takeWhile Char.isAlpha).length
      then some i else acc) none

/-- The email-in-text regex at the head of the list. -/
def emailAt (cs : List Char) : Option (List Char) :=
  let loc := cs.takeWhile emailC1
  if loc.isEmpty then none
  else
    match cs.drop loc.length with
    | '@' :: rest =>
      let R := rest.takeWhile emailC2
      match lastGoodDot R with
      | some d =>
        some (loc ++ '@' :: (R.take d ++ '.' :: (R.drop (d + 1)).takeWhile Char.isAlpha))
      | none => none
    | _ => none

def searchEmail : List Char → Option (List Char)
  | [] => none
  | c :: rest =>
    match emailAt (c :: rest) with
    | some g => some g
    | none => searchEmail rest

def isDash (c : Char) : Bool := c == '-' || c == '—'

/-- The introduce-yourself regex at the head of the list: one of the fixed
lead-ins, then the rest of the line. -/
def nameAt (cs : List Char) : Option (List Char) :=
  if ciStarts cs "меня зовут".data then
    let g := (cs.drop 10).takeWhile (fun c => c ≠ '\n')
    if g.isEmpty then none else some g
  else if ciStarts cs "мое имя".data || ciStarts cs "моё имя".data then
    let g := (cs.drop 7).takeWhile (fun c => c ≠ '\n')
    if g.isEmpty then none else some g
  else
    match cs with
    | c :: rest =>
      if chLow c == 'я' then
        match rest.dropWhile Char.isWhitespace with
        | dch :: r3 =>
          if isDash dch then
            let g := (r3.dropWhile Char.isWhitespace).takeWhile (fun c => c ≠ '\n')
            if g.isEmpty then none else some g
          else none
        | [] => none
      else none
    | [] => none

def searchName : List Char → Option (List Char)
  | [] => none
  | c :: rest =>
    match nameAt (c :: rest) with
    | some g => some g
    | none => searchName rest

def btClass (c : Char) : Bool := !(c == ',' || c == '.' || c == '!' || c == '?')

/-- The best-time regex at the head: a time keyword, whitespace, then at
least one character up to sentence punctuation; yields the whole match. -/
def btKwAt (cs : List Char) (kw : List Char) : Option (List Char) :=
  if ciStarts cs kw then
    match (cs.drop kw.length).takeWhile btClass with
    | c :: c2 :: t => if c.isWhitespace then some (cs.take kw.length ++ c :: c2 :: t) else none
    | _ => none
  else none

def btAt (cs : List Char) : Option (List Char) :=
  match btKwAt cs "после".data with
  | some g => some g
  | none =>
    match btKwAt cs "до".data with
    | some g => some g
    | none => btKwAt cs "в".data

def searchBt : List Char → Option (List Char)
  | [] => none
  | c :: rest =>
    match btAt (c :: rest) with
    | some g => some g
    | none => searchBt rest

/-- `try_extract_value_for_key`: pull a fresh value for the given field
out of a correction utterance. -/
def try_extract_value_for_key (key : String) (text : String) : Option Val :=
  let s := pyStrip text
  if key == "urgency" then
    match infer_urgency s with
    | some syn => some (vStr syn)
    | none => none
  else if key == "pages_a4" || key == "weight_grams" then
    match firstDigitRun (pyLower s).data with
    | some ds =>
      let val : Int := (digitsToNat ds : Nat)
      if 0 ≤ val then some (vInt val) else none
    | none => none
  else if key == "from_country" || key == "to_country" then
    let cand := match searchCountry s.data with
      | some g => String.mk g
      | none => s
    match normalize_country cand with
    | some c => some (vStr c)
    | none => none
  else if key == "from_city" || key == "to_city" then
    match searchCity s.data with
    | some g => some (vStr (pyTitle (pyStrip (String.mk g))))
    | none => none
  else if key == "phone" then
    match searchPhone s.data with
    | some g =>
      let cand := String.mk (removeSpaces g)
      if valid_phone cand then some (vStr cand) else none
    | none => none
  else if key == "email" then
    match searchEmail s.data with
    | some g => if valid_email (String.mk g) then some (vStr (String.mk g)) else none
    | none => none
  else if key == "name" then
    match searchName s.data with
    | some g =>
      let cand := pyStrip (String.mk g)
      if valid_name cand then some (vStr cand) else none
    | none => none
  else if key == "best_time" then
    match searchBt s.data with
    | some g => some (vStr (String.mk g))
    | none => some (vStr s)
  else if key == "doc_type" then
    if 2 ≤ s.data.length then some (vStr s) else none
  else none

def JUMP_WORDS : List String :=
  ["верни", "вернуть", "вернись", "исправ", "поправ", "измен", "поменя", "коррект"]

/-- `detect_jump_or_edit`: recognize a go-back/fix command and optionally
a replacement value carried in the same utterance. -/
def detect_jump_or_edit (text : String) : Option String × Option Val :=
  let s := pyLower text
  if s == "" then (none, none)
  else if JUMP_WORDS.any (fun w => containsSub s w) then
    match alias_to_key s with
    | none => (none, none)
    | some key => (some key, try_extract_value_for_key key text)
  else (none, none)

/-! ## The wizard controller (src/main.py lines 838-1073) -/

/-- The question `ask` sends for the field at the given index (choice
fields list their options). -/
def ask_text (idx : Nat) : String :=
  let f := FIELDS.getD idx default
  if f.ftype == "choice" then f.q ++ " [" ++ String.intercalate ", " f.choices ++ "]"
  else f.q

/-- The outcome of one `handle_answer` turn: resulting conversation state,
stored lead data, messages sent to the user, and whether the form was
finalized. -/
structure TurnOut where
  state : String
  data : Dict
  sent : List String
  finalized : Bool
deriving Repr, DecidableEq

/-- `finalize_form` (persist, quote, notify, confirm, complete); the lead
snapshot is the data, the user gets the confirmation message. -/
def finalize_form (data : Dict) : Option TurnOut := do
  let q ← compute_quote data
  pure ⟨"completed", data, [finalize_reply data q], true⟩

/-- The cursor read of the strict wizard path (lines 938-940):
`int(data.get("_idx", 0))`, clamped to 0 when out of range. -/
def wizard_idx (data : Dict) : Option Nat :=
  (pyInt ((dget data "_idx").getD (vInt 0))).map
    (fun i => if i < 0 || (FIELDS.length : Int) ≤ i then 0 else i.toNat)

/-- The per-type strict validation of lines 948-993: an accepted value or
the error message sent back to the user. -/
def field_validate (f : FieldSpec) (text : String) : Sum String Val :=
  let s := pyStrip text
  let t := f.ftype
  if t == "text" then
    if 1 ≤ s.data.length then Sum.inr (vStr s)
    else Sum.inl "Пустое значение. Повторите, пожалуйста."
  else if t == "choice" then
    let s_norm0 := pyLower s
    let s_norm := if f.key == "urgency" then (infer_urgency s).getD s_norm0 else s_norm0
    match f.choices.find? (fun c => pyLower c == s_norm) with
    | some c => Sum.inr (vStr c)
    | none => Sum.inl ("Пожалуйста, выберите из вариантов: " ++ String.intercalate ", " f.choices)
  else if t == "int" then
    match parse_int s with
    | some n => if n > 0 then Sum.inr (vInt n) else Sum.inl "Нужно число > 0. Пример: 10"
    | none => Sum.inl "Нужно число > 0. Пример: 10"
  else if t == "int_opt" then
    if ["нет", "не знаю", "unknown", "нету", "-"].contains (pyLower s) then Sum.inr (vInt 0)
    else
      match parse_int s with
      | some n =>
        if n < 0 then Sum.inl "Укажите число (например: 120) или напишите «нет»"
        else Sum.inr (vInt n)
      | none => Sum.inl "Укажите число (например: 120) или напишите «нет»"
  else if t == "phone" then
    if valid_phone s then Sum.inr (vStr s)
    else Sum.inl "Телефон должен начинаться с +380 / +7 / +375 без лишних символов."
  else if t == "email" then
    if valid_email s then Sum.inr (vStr s)
    else Sum.inl "Похоже на неверный email. Пример: name@example.com"
  else if t == "name" then
    if valid_name s then Sum.inr (vStr s)
    else Sum.inl "Введите имя/фамилию (буквы, пробелы и дефисы; не короче 2 символов)."
  else Sum.inr vNone

/-- The strict one-field step of `handle_answer` (lines 937-1016). -/
def strict_step (state : String) (data : Dict) (text : String) : Option TurnOut := do
  let idx ← wizard_idx data
  let f := FIELDS.getD idx default
  match field_validate f text with
  | Sum.inl err => pure ⟨state, data, [err, ask_text idx], false⟩
  | Sum.inr val => do
    let d1 := dset data f.key val
    let d2 ←
      if f.key == "pages_a4" then do
        let pages ← pyInt (pyOr (some val) (vInt 0))
        if pages > 0 then do
          let wz ← pyInt (pyOr (dget d1 "weight_grams") (vInt 0))
          pure (if wz == 0 then dset d1 "weight_grams" (vInt (pages * 6)) else d1)
        else pure d1
      else pure d1
    let idx2 := idx + 1
    if idx2 < FIELDS.length then
      pure ⟨state, dset d2 "_idx" (vInt (idx2 : Int)), ["Принято.", ask_text idx2], false⟩
    else finalize_form d2

/-- `handle_answer` (lines 864-1016).  `ai` is the `ai_understand`
collaborator (the model call), `aiReply` the generic `ai_reply` chat
collaborator; both are injected.  `none` models an uncaught exception. -/
def handle_answer (ai : String → Option Dict) (aiReply : String → String)
    (state : String) (data : Dict) (text : String) : Option TurnOut :=
  match detect_jump_or_edit text with
  | (some key, newVal) =>
    (match newVal with
     | some v => do
       let d1 := dset data key v
       let d2 ←
         if key == "pages_a4" then do
           let wz ← pyInt (pyOr (dget d1 "weight_grams") (vInt 0))
           if wz == 0 then
             pure (match pyInt v with
                   | some pages =>
                     if pages > 0 then dset d1 "weight_grams" (vInt (pages * 6)) else d1
                   | none => d1)
           else pure d1
         else pure d1
       let idx := first_missing_index d2
       if FIELDS.length ≤ idx then finalize_form d2
       else
         pure ⟨"collecting", dset d2 "_idx" (vInt (idx : Int)),
               ["Ок, вернул к запрошенному шагу. Уточните, пожалуйста.", ask_text idx], false⟩
     | none =>
       let idx := (FIELDS.findIdx? (fun f => f.key == key)).getD 0
       some ⟨"collecting", dset data "_idx" (vInt (idx : Int)),
             ["Ок, вернул к запрошенному шагу. Уточните, пожалуйста.", ask_text idx], false⟩)
  | (none, _) =>
    if state == "collecting" then
      let aiTry := pyOrOpt (heuristic_parse text) (ai text)
      if dictTruthy aiTry then
        let merged := merge_ai_data data (aiTry.getD [])
        if !(deqb merged data) then
          let idx := first_missing_index merged
          if FIELDS.length ≤ idx then finalize_form merged
          else
            some ⟨state, dset merged "_idx" (vInt (idx : Int)),
                  ["Принято. Продолжим.", ask_text idx], false⟩
        else strict_step state data text
      else strict_step state data text
    else
      let parsed := pyOrOpt (heuristic_parse text) (ai text)
      if dictTruthy parsed then
        let d := merge_ai_data [] (parsed.getD [])
        let idx := first_missing_index d
        if FIELDS.length ≤ idx then finalize_form d
        else
          some ⟨"collecting", dset d "_idx" (vInt (idx : Int)),
                ["Понял вас. Давайте уточним пару моментов.", ask_text idx], false⟩
      else some ⟨state, data, [aiReply text], false⟩

/-! ## Lemmas about the merge engine -/

theorem pyEmpty_false_truthy (o : Option Val) (h : pyEmptyVal o = false) :
    truthyO o = true := by
  match o with
  | none => simp [pyEmptyVal] at h
  | some vNone => simp [pyEmptyVal] at h
  | some (vStr s) => simp [pyEmptyVal] at h; simp [truthyO, truthy, h]
  | some (vInt n) => simp [pyEmptyVal] at h; simp [truthyO, truthy, h]

theorem mergeStep_get_preserved (p m : Dict) (k0 k : String)
    (h : pyEmptyVal (dget m k) = false) :
    dget (mergeStep p m k0) k = dget m k := by
  unfold mergeStep
  match hp : dget p k0 with
  | none => rfl
  | some v =>
    simp only
    by_cases hk : k0 = k
    · subst hk
      simp [h]
    · split
      · exact dget_dset_ne m k k0 v hk
      · rfl

theorem foldl_mergeStep_nonempty (p : Dict) (ks : List String) (m : Dict) (k : String)
    (h : pyEmptyVal (dget m k) = false) :
    dget (ks.foldl (mergeStep p) m) k = dget m k := by
  induction ks generalizing m with
  | nil => rfl
  | cons k0 rest ih =>
    have hstep := mergeStep_get_preserved p m k0 k h
    have h' : pyEmptyVal (dget (mergeStep p m k0) k) = false := by rw [hstep]; exact h
    simpa [List.foldl, hstep] using ih (mergeStep p m k0) h'

theorem mergeStep_get_notin (p m : Dict) (k0 k : String) (h : k0 ≠ k) :
    dget (mergeStep p m k0) k = dget m k := by
  unfold mergeStep
  match hp : dget p k0 with
  | none => rfl
  | some v =>
    simp only
    split
    · exact dget_dset_ne m k k0 v h
    · rfl

theorem foldl_mergeStep_notin (p : Dict) (ks : List String) (m : Dict) (k : String)
    (h : k ∉ ks) :
    dget (ks.foldl (mergeStep p) m) k = dget m k := by
  induction ks generalizing m with
  | nil => rfl
  | cons k0 rest ih =>
    have hne : k0 ≠ k := by intro he; exact h (he ▸ List.mem_cons_self k0 rest)
    have hrest : k ∉ rest := fun hm => h (List.mem_cons_of_mem k0 hm)
    simpa [List.foldl, mergeStep_get_notin p m k0 k hne] using ih (mergeStep p m k0) hrest

theorem mergeBackfill_get_ne (m : Dict) (k : String) (h : k ≠ "weight_grams") :
    dget (mergeBackfill m) k = dget m k := by
  unfold mergeBackfill
  split
  · split
    · split
      · exact dget_dset_ne m k "weight_grams" _ (Ne.symm h)
      · rfl
    · rfl
  · rfl

theorem mergeBackfill_get_nonempty (m : Dict) (k : String)
    (h : pyEmptyVal (dget m k) = false) :
    dget (mergeBackfill m) k = dget m k := by
  by_cases hk : k = "weight_grams"
  · subst hk
    unfold mergeBackfill
    have ht := pyEmpty_false_truthy _ h
    rw [ht]
    simp
  · exact mergeBackfill_get_ne m k hk

/-- Core no-clobber property of `merge_ai_data`: a key whose existing value
is not absent/empty/zero keeps its value. -/
theorem merge_preserves_nonempty (e p : Dict) (k : String)
    (h : pyEmptyVal (dget e k) = false) :
    dget (merge_ai_data e p) k = dget e k := by
  unfold merge_ai_data
  have hloop := foldl_mergeStep_nonempty p AI_KEYS e k h
  have h' : pyEmptyVal (dget (AI_KEYS.foldl (mergeStep p) e) k) = false := by
    rw [hloop]; exact h
  rw [mergeBackfill_get_nonempty _ _ h', hloop]

theorem mergeStep_id (p e : Dict) (k0 : String)
    (h : dget p k0 = none ∨ pyEmptyVal (dget e k0) = false) :
    mergeStep p e k0 = e := by
  unfold mergeStep
  match hp : dget p k0 with
  | none => rfl
  | some v =>
    simp only
    rcases h with h | h
    · rw [hp] at h; cases h
    · simp [h]

theorem foldl_mergeStep_id (p : Dict) (ks : List String) (e : Dict)
    (h : ∀ k ∈ ks, dget p k = none ∨ pyEmptyVal (dget e k) = false) :
    ks.foldl (mergeStep p) e = e := by
  induction ks with
  | nil => rfl
  | cons k0 rest ih =>
    have h0 := mergeStep_id p e k0 (h k0 (List.mem_cons_self k0 rest))
    simp only [List.foldl, h0]
    exact ih (fun k hk => h k (List.mem_cons_of_mem k0 hk))

theorem mergeBackfill_id (e : Dict)
    (h : (truthyO (dget e "pages_a4") && !truthyO (dget e "weight_grams")) = false) :
    mergeBackfill e = e := by
  unfold mergeBackfill
  rw [h]
  simp

theorem is_filled_empty_str_false (f : FieldSpec) (hf : f ∈ FIELDS) :
    is_filled f (some (vStr "")) = false := by
  have hall : FIELDS.all (fun g => !is_filled g (some (vStr ""))) = true := by decide
  rw [List.all_eq_true] at hall
  simpa using hall f hf

theorem filled_nonzero_nonempty (f : FieldSpec) (hf : f ∈ FIELDS) (v : Val)
    (hv : v ≠ vInt 0) (hfil : is_filled f (some v) = true) :
    pyEmptyVal (some v) = false := by
  match v with
  | vInt n =>
    have hn : n ≠ 0 := fun h => hv (by rw [h])
    simp [pyEmptyVal, hn]
  | vStr s =>
    by_cases hs : s = ""
    · subst hs; rw [is_filled_empty_str_false f hf] at hfil; cases hfil
    · simp [pyEmptyVal, hs]
  | vNone =>
    rw [show is_filled f (some vNone) = false from rfl] at hfil
    cases hfil

/-- C1 counterexample: the weight field with stored value `0` passes its
`int_opt` validator (zero means "unknown" and is accepted), yet
`merge_ai_data` overwrites it with a later extraction, so the claimed
no-clobber property fails as stated. -/
theorem C1_counterexample :
    is_filled (FIELDS.getD 6 default) (dget [("weight_grams", vInt 0)] "weight_grams") = true ∧
    (FIELDS.getD 6 default).key = "weight_grams" ∧
    dget (merge_ai_data [("weight_grams", vInt 0)] [("weight_grams", vInt 50)]) "weight_grams"
      = some (vInt 50) ∧
    dget [("weight_grams", vInt 0)] "weight_grams" = some (vInt 0) ∧
    some (vInt 50) ≠ some (vInt 0) := by
  refine ⟨by decide, rfl, by decide, rfl, by decide⟩

/-- C1 (amended): for every schema field whose value in `d` is valid and is
not the zero sentinel `0`, `merge_ai_data` returns the same value at that
key — the original claim fails only for the weight field holding the
valid-but-overwritable value `0`. -/
theorem C1_no_clobber_amended (d p : Dict) (f : FieldSpec) (hf : f ∈ FIELDS)
    (hfil : is_filled f (dget d f.key) = true)
    (hnz : dget d f.key ≠ some (vInt 0)) :
    dget (merge_ai_data d p) f.key = dget d f.key := by
  match hv : dget d f.key with
  | none => rw [hv, show is_filled f none = false from rfl] at hfil; cases hfil
  | some v =>
    rw [hv] at hfil hnz
    have hne : pyEmptyVal (some v) = false :=
      filled_nonzero_nonempty f hf v (fun he => hnz (by rw [he])) hfil
    have hp := merge_preserves_nonempty d p f.key (by rw [hv]; exact hne)
    rw [hp]
    exact hv

theorem C1_witness :
    (FIELDS.getD 9 default) ∈ FIELDS ∧
    is_filled (FIELDS.getD 9 default)
      (dget [("phone", vStr "+71234567")] (FIELDS.getD 9 default).key) = true ∧
    dget [("phone", vStr "+71234567")] (FIELDS.getD 9 default).key ≠ some (vInt 0) ∧
    dget (merge_ai_data [("phone", vStr "+71234567")] [("phone", vStr "+380999")])
        (FIELDS.getD 9 default).key
      = dget [("phone", vStr "+71234567")] (FIELDS.getD 9 default).key :=
  ⟨by decide, by decide, by decide,
   C1_no_clobber_amended _ _ _ (by decide) (by decide) (by decide)⟩

/-- C2 counterexample: merging the empty extraction into
`{pages_a4: 5}` backfills `weight_grams = 30`, так `merge(d, {})` is not
`d`; and merging onto a valid weight of `0` overwrites it. -/
theorem C2_counterexample :
    dget (merge_ai_data [("pages_a4", vInt 5)] []) "weight_grams" = some (vInt 30) ∧
    dget [("pages_a4", vInt 5)] "weight_grams" = none ∧
    is_filled (FIELDS.getD 6 default) (some (vInt 0)) = true ∧
    dget (merge_ai_data [("weight_grams", vInt 0)] [("weight_grams", vInt 77)]) "weight_grams"
      = some (vInt 77) := by
  refine ⟨by decide, rfl, by decide, by decide⟩

/-- C2 (amended): `merge_ai_data d p = d` whenever every key of `p` is
already non-absent/non-empty/non-zero in `d` and the pages-to-weight
backfill is not pending in `d` (page count unset or weight already set);
with `p = {}` the first condition is vacuous. -/
theorem C2_idempotent_merge_amended (d p : Dict)
    (h1 : AI_KEYS.all (fun k => (dget p k).isNone || !(pyEmptyVal (dget d k))) = true)
    (h2 : (truthyO (dget d "pages_a4") && !truthyO (dget d "weight_grams")) = false) :
    merge_ai_data d p = d := by
  unfold merge_ai_data
  have hl : AI_KEYS.foldl (mergeStep p) d = d := by
    apply foldl_mergeStep_id
    intro k hk
    rw [List.all_eq_true] at h1
    have hx := h1 k hk
    simp only [Bool.or_eq_true, Option.isNone_iff_eq_none, Bool.not_eq_true'] at hx
    exact hx
  rw [hl]
  exact mergeBackfill_id d h2

theorem C2_witness :
    (AI_KEYS.all (fun k =>
      (dget [("pages_a4", vInt 99)] k).isNone ||
      !(pyEmptyVal (dget [("pages_a4", vInt 2), ("weight_grams", vInt 12)] k))) = true) ∧
    ((truthyO (dget [("pages_a4", vInt 2), ("weight_grams", vInt 12)] "pages_a4") &&
      !truthyO (dget [("pages_a4", vInt 2), ("weight_grams", vInt 12)] "weight_grams")) = false) ∧
    merge_ai_data [("pages_a4", vInt 2), ("weight_grams", vInt 12)] [("pages_a4", vInt 99)]
      = [("pages_a4", vInt 2), ("weight_grams", vInt 12)] :=
  ⟨by decide, by decide, C2_idempotent_merge_amended _ _ (by decide) (by decide)⟩

/-- C10: `merge_ai_data` writes only the twelve schema keys (the weight
backfill also lands on a schema key), so every other key of the existing
map — in particular the wizard cursor `_idx` — keeps its prior value. -/
theorem C10_merge_frame (e p : Dict) (k : String) (h : k ∉ AI_KEYS) :
    dget (merge_ai_data e p) k = dget e k := by
  unfold merge_ai_data
  have hw : k ≠ "weight_grams" :=
    fun he => h (he ▸ (by decide : "weight_grams" ∈ AI_KEYS))
  rw [mergeBackfill_get_ne _ _ hw]
  exact foldl_mergeStep_notin p AI_KEYS e k h

theorem C10_witness :
    ("_idx" ∉ AI_KEYS) ∧
    dget (merge_ai_data [("_idx", vInt 3), ("doc_type", vStr "диплом")]
            [("doc_type", vStr "паспорт"), ("pages_a4", vInt 4)]) "_idx"
      = dget [("_idx", vInt 3), ("doc_type", vStr "диплом")] "_idx" :=
  ⟨by decide, C10_merge_frame _ _ _ (by decide)⟩

/-! ## Lemmas about the pricing engine -/

theorem compute_quote_some (d : Dict) (q : Quote) (hq : compute_quote d = some q) :
    ∃ fcs tcs w us,
      strOf (pyOr (dget d "from_country") (vStr "")) = some fcs ∧
      strOf (pyOr (dget d "to_country") (vStr "")) = some tcs ∧
      pyInt (pyOr (dget d "weight_grams") (vInt 0)) = some w ∧
      strOf (pyOr (dget d "urgency") (vStr "обычная")) = some us ∧
      q = compute_quote_core fcs tcs w us := by
  unfold compute_quote at hq
  split at hq
  · exact ⟨_, _, _, _, by assumption, by assumption, by assumption, by assumption,
      (Option.some.inj hq).symm⟩
  · cases hq

theorem base_price_over (w : Int) (h100 : 100 < w) (u : String) :
    base_price w (PRICING u) = (none, none) := by
  have h50 : ¬(w ≤ 50) := by omega
  have h100' : ¬(w ≤ 100) := by omega
  unfold PRICING
  split <;> simp [base_price, h50, h100']

theorem quoteAssemble_urgency (w : Int) (u : String) (e : Option String) :
    (quoteAssemble w u e).urgency = u := by
  unfold quoteAssemble
  split <;> rfl

theorem core_urgency (fcs tcs : String) (w : Int) (us : String) :
    (compute_quote_core fcs tcs w us).urgency = resolveUrgency us :=
  quoteAssemble_urgency _ _ _

theorem quoteAssemble_price_std (w : Int) (e : Option String) :
    (w = 30 → (quoteAssemble w "обычная" e).price_eur = some 65) ∧
    (w = 80 → (quoteAssemble w "обычная" e).price_eur = some 85) := by
  constructor
  · rintro rfl
    norm_num [quoteAssemble, base_price, PRICING]
  · rintro rfl
    norm_num [quoteAssemble, base_price, PRICING]

theorem quoteAssemble_price_manual (w : Int) (u : String) (e : Option String)
    (hw : 100 < w ∨ w = 0) :
    (quoteAssemble w u e).price_eur = none := by
  unfold quoteAssemble
  rcases hw with hw | hw
  · rw [base_price_over w hw u]
    simp [show w ≠ 0 by omega]
  · subst hw
    simp

/-- C6: the pricing table lookup — 30 g at standard urgency prices at the
under-50 g tier (65), 80 g at the under-100 g tier (85), and any weight
above the last threshold or equal to zero yields the manual-quote
sentinel (price `none`). -/
theorem C6_pricing_table (d : Dict) (q : Quote) (w : Int)
    (hq : compute_quote d = some q)
    (hw : pyInt (pyOr (dget d "weight_grams") (vInt 0)) = some w) :
    ((q.urgency = "обычная" →
        ((w = 30 → q.price_eur = some 65) ∧ (w = 80 → q.price_eur = some 85))) ∧
     ((100 < w ∨ w = 0) → q.price_eur = none)) := by
  obtain ⟨fcs, tcs, w', us, _, _, hw', _, hcore⟩ := compute_quote_some d q hq
  have hww : w' = w := by rw [hw'] at hw; exact Option.some.inj hw
  subst hww hcore
  constructor
  · intro hu
    rw [core_urgency] at hu
    unfold compute_quote_core
    rw [hu]
    exact quoteAssemble_price_std w' _
  · intro h
    unfold compute_quote_core
    exact quoteAssemble_price_manual w' _ _ h

theorem C6_witness :
    compute_quote [("weight_grams", vInt 30)]
      = some (compute_quote_core "" "" 30 "обычная") ∧
    pyInt (pyOr (dget [("weight_grams", vInt 30)] "weight_grams") (vInt 0)) = some 30 ∧
    (compute_quote_core "" "" 30 "обычная").urgency = "обычная" ∧
    (compute_quote_core "" "" 30 "обычная").price_eur = some 65 :=
  ⟨by decide, by decide, by decide,
   ((C6_pricing_table [("weight_grams", vInt 30)] (compute_quote_core "" "" 30 "обычная") 30
      (by decide) (by decide)).1 (by decide)).1 rfl⟩

/-- C8: `compute_quote` is a pure function of the four inputs it reads —
weight, urgency, origin country and destination country; two maps that
agree on those keys get identical quote records. -/
theorem C8_quote_determinism (d1 d2 : Dict)
    (hw : dget d1 "weight_grams" = dget d2 "weight_grams")
    (hu : dget d1 "urgency" = dget d2 "urgency")
    (hf : dget d1 "from_country" = dget d2 "from_country")
    (ht : dget d1 "to_country" = dget d2 "to_country") :
    compute_quote d1 = compute_quote d2 := by
  unfold compute_quote
  rw [hw, hu, hf, ht]

theorem C8_witness :
    dget [("weight_grams", vInt 30), ("name", vStr "Анна")] "weight_grams"
      = dget [("weight_grams", vInt 30)] "weight_grams" ∧
    compute_quote [("weight_grams", vInt 30), ("name", vStr "Анна")]
      = compute_quote [("weight_grams", vInt 30)] :=
  ⟨by decide,
   C8_quote_determinism _ _ (by decide) (by decide) (by decide) (by decide)⟩

/-- C9: when the persisted cursor `_idx` is missing, negative or at least
the schema length, the strict wizard path clamps it to 0, which is within
the bounds of the twelve-entry schema. -/
theorem C9_cursor_clamp (data : Dict)
    (h : dget data "_idx" = none ∨
         ∃ i : Int, dget data "_idx" = some (vInt i) ∧ (i < 0 ∨ (FIELDS.length : Int) ≤ i)) :
    wizard_idx data = some 0 ∧ 0 < FIELDS.length := by
  refine ⟨?_, by decide⟩
  rcases h with h | ⟨i, hi, hrange⟩
  · rw [wizard_idx, h]; rfl
  · rw [wizard_idx, hi]
    have hc : (decide (i < 0) || decide ((FIELDS.length : Int) ≤ i)) = true := by
      rcases hrange with h | h
      · simp [h]
      · simp [h]
    simp only [Option.getD, pyInt, Option.map, hc]
    rfl

theorem C9_witness :
    (dget [("_idx", vInt 99)] "_idx" = some (vInt 99) ∧
     ((99 : Int) < 0 ∨ (FIELDS.length : Int) ≤ 99)) ∧
    (wizard_idx [("_idx", vInt 99)] = some 0 ∧ 0 < FIELDS.length) :=
  ⟨⟨rfl, by decide⟩, C9_cursor_clamp _ (Or.inr ⟨99, rfl, by decide⟩)⟩

/-- C7 counterexample: an express lead on the Ukraine-to-Russia corridor
gets the corridor working-day estimate, not the expedited text, in the
admin notification line derived from its quote — so the claimed property
fails for that output. -/
theorem C7_counterexample :
    (compute_quote [("urgency", vStr "срочная"), ("from_country", vStr "Украина"),
                    ("to_country", vStr "Россия"), ("weight_grams", vInt 30)]).map notify_eta_line
      = some "Срок: ориентировочно 27–29 рабочих дней" ∧
    (compute_quote [("urgency", vStr "срочная"), ("from_country", vStr "Украина"),
                    ("to_country", vStr "Россия"), ("weight_grams", vInt 30)]).map Quote.urgency
      = some "срочная" ∧
    "Срок: ориентировочно 27–29 рабочих дней" ≠ "Срок доставки: ускоренная доставка" := by
  refine ⟨by decide, by decide, by decide⟩

/-- C7 (amended): in the user-facing confirmation composed by
`finalize_form`, an express lead always gets the fixed expedited
delivery-time line; the admin notification, however, reports the
corridor-based estimate. -/
theorem C7_express_eta_amended (d : Dict) (q : Quote)
    (hurg : dget d "urgency" = some (vStr "срочная"))
    (hq : compute_quote d = some q) :
    finalize_eta_line q = "Срок доставки: ускоренная доставка" := by
  obtain ⟨fcs, tcs, w, us, _, _, _, hus, hcore⟩ := compute_quote_some d q hq
  rw [hurg] at hus
  have hus' : us = "срочная" := by
    rw [show pyOr (some (vStr "срочная")) (vStr "обычная") = vStr "срочная" from rfl] at hus
    exact (Option.some.inj hus).symm
  subst hus' hcore
  have hu : (compute_quote_core fcs tcs w "срочная").urgency = "срочная" := by
    rw [core_urgency]
    decide
  simp [finalize_eta_line, hu]

theorem C7_witness :
    dget [("urgency", vStr "срочная"), ("weight_grams", vInt 60)] "urgency"
      = some (vStr "срочная") ∧
    compute_quote [("urgency", vStr "срочная"), ("weight_grams", vInt 60)]
      = some (compute_quote_core "" "" 60 "срочная") ∧
    finalize_eta_line (compute_quote_core "" "" 60 "срочная")
      = "Срок доставки: ускоренная доставка" :=
  ⟨rfl, by decide,
   C7_express_eta_amended [("urgency", vStr "срочная"), ("weight_grams", vInt 60)] _
     rfl (by decide)⟩

/-! ## Lemmas about the wizard controller -/

theorem strict_step_err (state : String) (data : Dict) (text : String) (idx : Nat) (err : String)
    (hidx : wizard_idx data = some idx)
    (hval : field_validate (FIELDS.getD idx default) text = Sum.inl err) :
    strict_step state data text = some ⟨state, data, [err, ask_text idx], false⟩ := by
  unfold strict_step
  rw [hidx]
  show Option.bind (some idx) _ = _
  rw [Option.some_bind]
  simp only [hval]
  rfl

/-- C3: a strict-validation failure is side-effect free — when the
conversation is collecting, the correction detector finds nothing, the
opportunistic extraction changes nothing, and the utterance fails the
validator of the field at the expected index, the handler replies with
that field's specific error message and re-asks the same question, the
stored lead data (hence the expected index) is unchanged, and the state
stays collecting. -/
theorem C3_strict_failure_no_change (ai : String → Option Dict) (aiReply : String → String)
    (data : Dict) (text : String) (idx : Nat) (err : String)
    (hjump : detect_jump_or_edit text = (none, none))
    (hext : dictTruthy (pyOrOpt (heuristic_parse text) (ai text)) = false ∨
            deqb (merge_ai_data data ((pyOrOpt (heuristic_parse text) (ai text)).getD [])) data
              = true)
    (hidx : wizard_idx data = some idx)
    (hval : field_validate (FIELDS.getD idx default) text = Sum.inl err) :
    handle_answer ai aiReply "collecting" data text =
      some ⟨"collecting", data, [err, ask_text idx], false⟩ := by
  unfold handle_answer
  rw [hjump]
  simp only [beq_self_eq_true, if_true]
  rcases hext with hext | hext
  · rw [hext]
    simp only [Bool.false_eq_true, if_false]
    exact strict_step_err "collecting" data text idx err hidx hval
  · cases hT : dictTruthy (pyOrOpt (heuristic_parse text) (ai text)) with
    | false =>
      simp only [hT, Bool.false_eq_true, if_false]
      exact strict_step_err "collecting" data text idx err hidx hval
    | true =>
      simp only [hT, if_true, hext, Bool.not_true, Bool.false_eq_true, if_false]
      exact strict_step_err "collecting" data text idx err hidx hval

theorem C3_witness :
    detect_jump_or_edit "123456" = (none, none) ∧
    dictTruthy (pyOrOpt (heuristic_parse "123456") ((fun _ => none) "123456")) = false ∧
    wizard_idx [("_idx", vInt 9)] = some 9 ∧
    field_validate (FIELDS.getD 9 default) "123456"
      = Sum.inl "Телефон должен начинаться с +380 / +7 / +375 без лишних символов." ∧
    handle_answer (fun _ => none) (fun _ => "") "collecting" [("_idx", vInt 9)] "123456"
      = some ⟨"collecting", [("_idx", vInt 9)],
              ["Телефон должен начинаться с +380 / +7 / +375 без лишних символов.",
               "Контактный телефон (+380 / +7 / +375):"], false⟩ :=
  ⟨by decide, by decide, by decide, by decide,
   C3_strict_failure_no_change (fun _ => none) (fun _ => "") [("_idx", vInt 9)] "123456" 9
     "Телефон должен начинаться с +380 / +7 / +375 без лишних символов."
     (by decide) (Or.inl (by decide)) (by decide) (by decide)⟩

/-- C4 counterexample: the heuristic extractor's page and weight patterns
match only the Russian unit tokens, so for the utterance
"20 pages, urgent" it yields only the express urgency — no `pages_a4`
and no `weight_grams`, contrary to the claim. -/
theorem C4_counterexample :
    (heuristic_parse "20 pages, urgent").map (fun m => dget m "pages_a4") = some none ∧
    (heuristic_parse "20 pages, urgent").map (fun m => dget m "weight_grams") = some none ∧
    (heuristic_parse "20 pages, urgent").map (fun m => dget m "urgency")
      = some (some (vStr "срочная")) := by
  refine ⟨by decide, by decide, by decide⟩

/-- C4 (amended): for the utterance "20 pages, urgent" received while not
collecting, the heuristic extractor yields only the express urgency (the
page/weight patterns are Russian-only), and the conversation enters
collecting positioned at the first missing field — document type, index
0 — not at page count. -/
theorem C4_heuristic_urgent_amended (ai : String → Option Dict) (aiReply : String → String)
    (state : String) (data : Dict) (h : (state == "collecting") = false) :
    handle_answer ai aiReply state data "20 pages, urgent" =
      some ⟨"collecting", [("urgency", vStr "срочная"), ("_idx", vInt 0)],
            ["Понял вас. Давайте уточним пару моментов.",
             "Какой тип документа? (например: доверенность, диплом, свидетельство)"],
            false⟩ := by
  unfold handle_answer
  rw [show detect_jump_or_edit "20 pages, urgent" = (none, none) from by decide]
  simp only [h, Bool.false_eq_true, if_false]
  rfl

theorem C4_witness :
    (("greeting" : String) == "collecting") = false ∧
    handle_answer (fun _ => none) (fun _ => "") "greeting" [] "20 pages, urgent" =
      some ⟨"collecting", [("urgency", vStr "срочная"), ("_idx", vInt 0)],
            ["Понял вас. Давайте уточним пару моментов.",
             "Какой тип документа? (например: доверенность, диплом, свидетельство)"],
            false⟩ :=
  ⟨by decide,
   C4_heuristic_urgent_amended (fun _ => none) (fun _ => "") "greeting" [] (by decide)⟩

/-! ## Lemmas about stripping, for the extractor guarantee -/

theorem dropWhile_head_false (p : Char → Bool) (l : List Char) (c : Char) (t : List Char)
    (h : l.dropWhile p = c :: t) : p c = false := by
  induction l with
  | nil => simp [List.dropWhile] at h
  | cons a l ih =>
    rw [List.dropWhile_cons] at h
    split at h
    · exact ih h
    · cases h
      simp_all

theorem stripL_nil_all_ws (l : List Char) (h : stripL l = []) :
    ∀ c ∈ l, Char.isWhitespace c = true := by
  unfold stripL at h
  rw [List.reverse_eq_nil_iff, List.dropWhile_eq_nil_iff] at h
  have hA : ∀ c ∈ l.dropWhile Char.isWhitespace, Char.isWhitespace c = true := by
    intro c hc
    exact h c (List.mem_reverse.mpr hc)
  intro c hc
  rw [← List.takeWhile_append_dropWhile Char.isWhitespace l] at hc
  rcases List.mem_append.mp hc with hc | hc
  · exact List.mem_takeWhile_imp hc
  · exact hA c hc

theorem stripL_has_nonws (l : List Char) (h : stripL l ≠ []) :
    ∃ c ∈ stripL l, Char.isWhitespace c = false := by
  unfold stripL at h ⊢
  match hD : ((l.dropWhile Char.isWhitespace).reverse.dropWhile Char.isWhitespace) with
  | [] => rw [hD] at h; simp at h
  | c :: t =>
    refine ⟨c, ?_, dropWhile_head_false _ _ _ _ hD⟩
    exact List.mem_reverse.mpr (List.mem_cons_self c t)

theorem pyStrip_strip_ne (s : String) (h : pyStrip s ≠ "") :
    pyStrip (pyStrip s) ≠ "" := by
  intro hcon
  have hdata : stripL (stripL s.data) = [] := congrArg String.data hcon
  have hne : stripL s.data ≠ [] := by
    intro hnil
    exact h (congrArg String.mk hnil)
  obtain ⟨c, hc, hws⟩ := stripL_has_nonws s.data hne
  have := stripL_nil_all_ws (stripL s.data) hdata c hc
  rw [this] at hws
  cases hws

/-! ## The extractor-output invariant -/

/-- Shape of a value that the cleaning loop of `ai_understand` can store
at key `k`: a non-negative int for the two numeric keys, a canonical
label for urgency, a nonempty string for the countries, and a nonempty
stripped string for everything else. -/
def cleanVal (k : String) (v : Val) : Prop :=
  if k == "pages_a4" || k == "weight_grams" then ∃ n : Int, v = vInt n ∧ 0 ≤ n
  else if k == "from_country" || k == "to_country" then ∃ s : String, v = vStr s ∧ s ≠ ""
  else if k == "urgency" then v = vStr "обычная" ∨ v = vStr "срочная"
  else ∃ s0 : String, v = vStr (pyStrip s0) ∧ pyStrip s0 ≠ ""

def cleanInv (c : Dict) : Prop := ∀ k v, dget c k = some v → cleanVal k v

theorem cleanInv_nil : cleanInv [] := by
  intro k v h
  simp [dget] at h

theorem cleanInv_dset (c : Dict) (k : String) (v : Val) (hc : cleanInv c) (hv : cleanVal k v) :
    cleanInv (dset c k v) := by
  intro k0 v0 h
  by_cases hk : k0 = k
  · subst hk
    rw [dget_dset_self] at h
    injection h with h'
    subst h'
    exact hv
  · rw [dget_dset_ne c k0 k v (Ne.symm hk)] at h
    exact hc k0 v0 h

theorem cleanInv_ddel (c : Dict) (k : String) (hc : cleanInv c) : cleanInv (ddel c k) := by
  intro k0 v0 h
  by_cases hk : k0 = k
  · subst hk
    rw [dget_ddel_self] at h
    cases h
  · rw [dget_ddel_ne c k0 k (Ne.symm hk)] at h
    exact hc k0 v0 h

theorem normalize_urgency_canon (x u : String) (h : normalize_urgency x = some u) :
    u = "обычная" ∨ u = "срочная" := by
  unfold normalize_urgency at h
  split_ifs at h
  · exact Or.inl (Option.some.inj h).symm
  · exact Or.inr (Option.some.inj h).symm

theorem cleanNum_eq_none (c : Dict) (k : String) (v : Val) (hp : pyInt v = none) :
    cleanNum c k v = c := by
  unfold cleanNum; rw [hp]

theorem cleanNum_eq_some (c : Dict) (k : String) (v : Val) (iv : Int)
    (hp : pyInt v = some iv) :
    cleanNum c k v = if 0 ≤ iv then dset c k (vInt iv) else c := by
  unfold cleanNum; rw [hp]

theorem cleanCountry_eq_none (c : Dict) (k : String) (v : Val)
    (hp : normalize_country (pyStrOf v) = none) : cleanCountry c k v = c := by
  unfold cleanCountry; rw [hp]

theorem cleanCountry_eq_some (c : Dict) (k : String) (v : Val) (nv : String)
    (hp : normalize_country (pyStrOf v) = some nv) :
    cleanCountry c k v = if nv ≠ "" then dset c k (vStr nv) else c := by
  unfold cleanCountry; rw [hp]

theorem cleanUrgency_eq_none (c : Dict) (k : String) (v : Val)
    (hp : normalize_urgency (pyStrOf v) = none) : cleanUrgency c k v = c := by
  unfold cleanUrgency; rw [hp]

theorem cleanUrgency_eq_some (c : Dict) (k : String) (v : Val) (nu : String)
    (hp : normalize_urgency (pyStrOf v) = some nu) :
    cleanUrgency c k v = if nu ≠ "" then dset c k (vStr nu) else c := by
  unfold cleanUrgency; rw [hp]

theorem cleanNum_inv (c : Dict) (k : String) (v : Val) (hc : cleanInv c)
    (hk : (k == "pages_a4" || k == "weight_grams") = true) :
    cleanInv (cleanNum c k v) := by
  rcases hp : pyInt v with _ | iv
  · rw [cleanNum_eq_none c k v hp]; exact hc
  · rw [cleanNum_eq_some c k v iv hp]
    by_cases h2 : 0 ≤ iv
    · rw [if_pos h2]
      refine cleanInv_dset c k _ hc ?_
      unfold cleanVal
      rw [if_pos hk]
      exact ⟨iv, rfl, h2⟩
    · rw [if_neg h2]; exact hc

theorem cleanCountry_inv (c : Dict) (k : String) (v : Val) (hc : cleanInv c)
    (hk : (k == "from_country" || k == "to_country") = true) :
    cleanInv (cleanCountry c k v) := by
  rcases hp : normalize_country (pyStrOf v) with _ | nv
  · rw [cleanCountry_eq_none c k v hp]; exact hc
  · rw [cleanCountry_eq_some c k v nv hp]
    by_cases h3 : nv ≠ ""
    · rw [if_pos h3]
      refine cleanInv_dset c k _ hc ?_
      have hk' : k = "from_country" ∨ k = "to_country" := by simpa using hk
      rcases hk' with rfl | rfl <;> exact ⟨nv, rfl, h3⟩
    · rw [if_neg h3]; exact hc

theorem cleanUrgency_inv (c : Dict) (v : Val) (hc : cleanInv c) :
    cleanInv (cleanUrgency c "urgency" v) := by
  rcases hp : normalize_urgency (pyStrOf v) with _ | nu
  · rw [cleanUrgency_eq_none c "urgency" v hp]; exact hc
  · rw [cleanUrgency_eq_some c "urgency" v nu hp]
    by_cases h4 : nu ≠ ""
    · rw [if_pos h4]
      refine cleanInv_dset c "urgency" _ hc ?_
      rcases normalize_urgency_canon _ _ hp with rfl | rfl
      · exact Or.inl rfl
      · exact Or.inr rfl
    · rw [if_neg h4]; exact hc

theorem cleanText_inv (c : Dict) (k : String) (v : Val) (hc : cleanInv c)
    (h1 : (k == "pages_a4" || k == "weight_grams") = false)
    (h2 : (k == "from_country" || k == "to_country") = false)
    (h3 : (k == "urgency") = false) :
    cleanInv (cleanText c k v) := by
  unfold cleanText
  by_cases h4 : pyStrip (pyStrOf v) ≠ ""
  · rw [if_pos h4]
    refine cleanInv_dset c k _ hc ?_
    unfold cleanVal
    rw [if_neg (by simp [h1]), if_neg (by simp [h2]), if_neg (by simp [h3])]
    exact ⟨pyStrOf v, rfl, h4⟩
  · rw [if_neg h4]; exact hc

theorem ai_clean_step_inv (c : Dict) (kv : String × Val) (hc : cleanInv c) :
    cleanInv (ai_clean_step c kv) := by
  obtain ⟨k, v⟩ := kv
  unfold ai_clean_step
  by_cases h0 : (!(AI_KEYS.contains k) || v == vNone) = true
  · rw [if_pos h0]; exact hc
  · rw [if_neg h0]
    by_cases h1 : (k == "pages_a4" || k == "weight_grams") = true
    · rw [if_pos h1]; exact cleanNum_inv c k v hc h1
    · rw [if_neg h1]
      by_cases h2 : (k == "from_country" || k == "to_country") = true
      · rw [if_pos h2]; exact cleanCountry_inv c k v hc h2
      · rw [if_neg h2]
        by_cases h3 : (k == "urgency") = true
        · rw [if_pos h3]
          have hk : k = "urgency" := by simpa using h3
          subst hk
          exact cleanUrgency_inv c v hc
        · rw [if_neg h3]
          exact cleanText_inv c k v hc (Bool.not_eq_true _ ▸ eq_false_of_ne_true h1)
            (eq_false_of_ne_true h2) (eq_false_of_ne_true h3)

theorem foldl_clean_inv (raw : List (String × Val)) (c : Dict) (hc : cleanInv c) :
    cleanInv (raw.foldl ai_clean_step c) := by
  induction raw generalizing c with
  | nil => exact hc
  | cons kv rest ih => exact ih _ (ai_clean_step_inv c kv hc)

theorem dropInvalid_eq_absent (c : Dict) (k : String) (f : String → Bool)
    (hg : dget c k = none) : dropInvalid c k f = c := by
  unfold dropInvalid; rw [hg]

theorem dropInvalid_eq_keep (c : Dict) (k : String) (f : String → Bool) (v : Val)
    (hg : dget c k = some v) (hf : f (pyStrOf v) = true) : dropInvalid c k f = c := by
  unfold dropInvalid
  rw [hg]
  show (if f (pyStrOf v) = true then c else ddel c k) = c
  rw [if_pos hf]

theorem dropInvalid_eq_drop (c : Dict) (k : String) (f : String → Bool) (v : Val)
    (hg : dget c k = some v) (hf : f (pyStrOf v) = false) : dropInvalid c k f = ddel c k := by
  unfold dropInvalid
  rw [hg]
  show (if f (pyStrOf v) = true then c else ddel c k) = ddel c k
  rw [if_neg (by simp [hf])]

theorem dropInvalid_inv (c : Dict) (k : String) (f : String → Bool) (hc : cleanInv c) :
    cleanInv (dropInvalid c k f) := by
  rcases hg : dget c k with _ | v0
  · rw [dropInvalid_eq_absent c k f hg]; exact hc
  · rcases hf : f (pyStrOf v0) with _ | _
    · rw [dropInvalid_eq_drop c k f v0 hg hf]; exact cleanInv_ddel c k hc
    · rw [dropInvalid_eq_keep c k f v0 hg hf]; exact hc

theorem dropInvalid_frame (c : Dict) (k k' : String) (f : String → Bool) (h : k' ≠ k) :
    dget (dropInvalid c k f) k' = dget c k' := by
  rcases hg : dget c k with _ | v0
  · rw [dropInvalid_eq_absent c k f hg]
  · rcases hf : f (pyStrOf v0) with _ | _
    · rw [dropInvalid_eq_drop c k f v0 hg hf]
      exact dget_ddel_ne c k' k (Ne.symm h)
    · rw [dropInvalid_eq_keep c k f v0 hg hf]

theorem dropInvalid_checked (c : Dict) (k : String) (f : String → Bool) (v : Val)
    (h : dget (dropInvalid c k f) k = some v) : f (pyStrOf v) = true := by
  rcases hg : dget c k with _ | v0
  · rw [dropInvalid_eq_absent c k f hg, hg] at h
    cases h
  · rcases hf : f (pyStrOf v0) with _ | _
    · rw [dropInvalid_eq_drop c k f v0 hg hf, dget_ddel_self] at h
      cases h
    · rw [dropInvalid_eq_keep c k f v0 hg hf, hg] at h
      injection h with h'
      rw [← h']
      exact hf

theorem ai_clean_backfill_cases (c3 c : Dict) (h : ai_clean_backfill c3 = some c) :
    c = c3 ∨ ∃ p : Int, 0 < p ∧ c = dset c3 "weight_grams" (vInt (p * 6)) := by
  unfold ai_clean_backfill at h
  split at h
  · split at h
    · injection h with h'
      subst h'
      split
      · right
        exact ⟨_, by assumption, rfl⟩
      · left; rfl
    · cases h
  · left
    exact (Option.some.inj h).symm

theorem ai_clean_cases (raw : List (String × Val)) (c : Dict) (hc : ai_clean raw = some c) :
    ∃ c3 : Dict, cleanInv c3 ∧
      (∀ v, dget c3 "phone" = some v → valid_phone (pyStrOf v) = true) ∧
      (∀ v, dget c3 "email" = some v → valid_email (pyStrOf v) = true) ∧
      (∀ v, dget c3 "name" = some v → valid_name (pyStrOf v) = true) ∧
      (c = c3 ∨ ∃ p : Int, 0 < p ∧ c = dset c3 "weight_grams" (vInt (p * 6))) := by
  have hinv0 : cleanInv (raw.foldl ai_clean_step []) := foldl_clean_inv raw [] cleanInv_nil
  have hinv1 := dropInvalid_inv _ "phone" valid_phone hinv0
  have hinv2 := dropInvalid_inv _ "email" valid_email hinv1
  have hinv3 := dropInvalid_inv _ "name" valid_name hinv2
  refine ⟨dropInvalid (dropInvalid (dropInvalid (raw.foldl ai_clean_step [])
    "phone" valid_phone) "email" valid_email) "name" valid_name, hinv3, ?_, ?_, ?_, ?_⟩
  · intro v hv
    rw [dropInvalid_frame _ "name" "phone" _ (by decide),
        dropInvalid_frame _ "email" "phone" _ (by decide)] at hv
    exact dropInvalid_checked _ "phone" valid_phone v hv
  · intro v hv
    rw [dropInvalid_frame _ "name" "email" _ (by decide)] at hv
    exact dropInvalid_checked _ "email" valid_email v hv
  · intro v hv
    exact dropInvalid_checked _ "name" valid_name v hv
  · unfold ai_clean at hc
    split at hc
    · cases hc
    · rename_i c4 hc4
      split at hc
      · cases hc
      · have hcc := Option.some.inj hc
        subst hcc
        exact ai_clean_backfill_cases _ _ hc4

/-- C5 counterexample: the cleaning pass of `ai_understand` lets through
an unknown country merely title-cased (which fails the choice validator)
and a zero page count (which fails the positive-int validator), so the
extractor can yield values that fail strict validation. -/
theorem C5_counterexample :
    ai_clean [("from_country", vStr "germany"), ("pages_a4", vInt 0)] =
      some [("from_country", vStr "Germany"), ("pages_a4", vInt 0)] ∧
    is_filled (FIELDS.getD 1 default) (some (vStr "Germany")) = false ∧
    (FIELDS.getD 1 default).key = "from_country" ∧
    is_filled (FIELDS.getD 5 default) (some (vInt 0)) = false ∧
    (FIELDS.getD 5 default).key = "pages_a4" := by
  refine ⟨by decide, by decide, rfl, by decide, rfl⟩

/-- C5 (amended): every key-value pair produced by the cleaning pass of
`ai_understand` passes its field's strict validator, except possibly for
the two country fields (unknown countries are only title-cased, not
checked against the choice set) and the page count (zero is let through
but fails the positive-int check): urgency is canonical, phone/email/name
are re-validated, weight is a non-negative int, and text fields are
nonempty. -/
theorem C5_extractor_valid_amended (raw : List (String × Val)) (c : Dict) (f : FieldSpec)
    (hf : f ∈ FIELDS) (v : Val)
    (hc : ai_clean raw = some c)
    (hv : dget c f.key = some v)
    (h1 : f.key ≠ "from_country") (h2 : f.key ≠ "to_country") (h3 : f.key ≠ "pages_a4") :
    is_filled f (some v) = true := by
  obtain ⟨c3, hinv, hph, hem, hnm, hcc⟩ := ai_clean_cases raw c hc
  have hframe : ∀ k : String, k ≠ "weight_grams" → dget c k = dget c3 k := by
    rcases hcc with rfl | ⟨p, hp, rfl⟩
    · intro k _; rfl
    · intro k hk; exact dget_dset_ne c3 k "weight_grams" _ (Ne.symm hk)
  have hwC : dget c "weight_grams" = dget c3 "weight_grams" ∨
      ∃ p : Int, 0 < p ∧ dget c "weight_grams" = some (vInt (p * 6)) := by
    rcases hcc with rfl | ⟨p, hp, rfl⟩
    · exact Or.inl rfl
    · exact Or.inr ⟨p, hp, dget_dset_self c3 "weight_grams" _⟩
  fin_cases hf
  · -- doc_type
    have hv3 : dget c3 "doc_type" = some v := by
      rw [← hframe "doc_type" (by decide)]; exact hv
    obtain ⟨s0, rfl, hne⟩ := hinv "doc_type" v hv3
    exact decide_eq_true (pyStrip_strip_ne s0 hne)
  · -- from_country: excluded
    exact absurd rfl h1
  · -- from_city
    have hv3 : dget c3 "from_city" = some v := by
      rw [← hframe "from_city" (by decide)]; exact hv
    obtain ⟨s0, rfl, hne⟩ := hinv "from_city" v hv3
    exact decide_eq_true (pyStrip_strip_ne s0 hne)
  · -- to_country: excluded
    exact absurd rfl h2
  · -- to_city
    have hv3 : dget c3 "to_city" = some v := by
      rw [← hframe "to_city" (by decide)]; exact hv
    obtain ⟨s0, rfl, hne⟩ := hinv "to_city" v hv3
    exact decide_eq_true (pyStrip_strip_ne s0 hne)
  · -- pages_a4: excluded
    exact absurd rfl h3
  · -- weight_grams
    rcases hwC with hw | ⟨p, hp, hw⟩
    · have hv3 : dget c3 "weight_grams" = some v := by rw [← hw]; exact hv
      obtain ⟨n, rfl, hn⟩ := hinv "weight_grams" v hv3
      exact decide_eq_true hn
    · rw [hv] at hw
      injection hw with h'
      subst h'
      exact decide_eq_true (by omega : (0 : Int) ≤ p * 6)
  · -- urgency
    have hv3 : dget c3 "urgency" = some v := by
      rw [← hframe "urgency" (by decide)]; exact hv
    rcases hinv "urgency" v hv3 with rfl | rfl <;> decide
  · -- name
    have hv3 : dget c3 "name" = some v := by
      rw [← hframe "name" (by decide)]; exact hv
    obtain ⟨s0, rfl, hne⟩ := hinv "name" v hv3
    exact hnm _ hv3
  · -- phone
    have hv3 : dget c3 "phone" = some v := by
      rw [← hframe "phone" (by decide)]; exact hv
    obtain ⟨s0, rfl, hne⟩ := hinv "phone" v hv3
    exact hph _ hv3
  · -- email
    have hv3 : dget c3 "email" = some v := by
      rw [← hframe "email" (by decide)]; exact hv
    obtain ⟨s0, rfl, hne⟩ := hinv "email" v hv3
    exact hem _ hv3
  · -- best_time
    have hv3 : dget c3 "best_time" = some v := by
      rw [← hframe "best_time" (by decide)]; exact hv
    obtain ⟨s0, rfl, hne⟩ := hinv "best_time" v hv3
    exact decide_eq_true (pyStrip_strip_ne s0 hne)

theorem C5_witness :
    ai_clean [("name", vStr " Иван ")] = some [("name", vStr "Иван")] ∧
    (FIELDS.getD 8 default) ∈ FIELDS ∧
    dget [("name", vStr "Иван")] (FIELDS.getD 8 default).key = some (vStr "Иван") ∧
    is_filled (FIELDS.getD 8 default) (some (vStr "Иван")) = true :=
  ⟨by decide, by decide, by decide,
   C5_extractor_valid_amended [("name", vStr " Иван ")] [("name", vStr "Иван")]
     (FIELDS.getD 8 default) (by decide) (vStr "Иван") (by decide)
     (by decide) (by decide) (by decide) (by decide)⟩
